import Mathlib

/-!
Verification of the shadow-lang compiler front end: a shallow embedding of
the lexer (`sdw-lib/src/lex.rs`), the diagnostic model
(`sdw-lib/src/errors.rs`) and the recursive-descent parser
(`src/parse.rs`), with theorems settling the specification's claims.

Strings are modelled as `List Char` (Rust iterates the source by `char`).
Machine integers (`u64` positions, `i64` literal values) are modelled as
`Nat` / `Int`; the one subtraction the code performs (`column - length`
in `Lexeme::new`) is `Nat` truncated subtraction, and it is shown never
to underflow at its call sites.
-/

/-- Rust `char::is_ascii_alphabetic`: `'A'..='Z' | 'a'..='z'`. -/
def isAsciiAlphabetic (c : Char) : Bool :=
  (65 ≤ c.toNat && c.toNat ≤ 90) || (97 ≤ c.toNat && c.toNat ≤ 122)

/-- Rust `char::is_ascii_digit`: `'0'..='9'`. -/
def isAsciiDigit (c : Char) : Bool :=
  48 ≤ c.toNat && c.toNat ≤ 57

/-- Rust `char::is_ascii_whitespace`: space, tab, LF, FF, CR. -/
def isAsciiWhitespace (c : Char) : Bool :=
  c.toNat = 32 || c.toNat = 9 || c.toNat = 10 || c.toNat = 12 || c.toNat = 13

/-- Numeric value of a digit string (most significant first). -/
def digitsVal (s : List Char) : Nat :=
  s.foldl (fun a c => a * 10 + (c.toNat - 48)) 0

/-- Rust `str::parse::<i64>()`: an optional sign followed by one or more
ASCII digits, value within `[-2^63, 2^63 - 1]`; anything else is `none`. -/
def parseI64 (s : List Char) : Option Int :=
  match s with
  | [] => none
  | c :: rest =>
    if c = '+' then
      if rest ≠ [] ∧ rest.all isAsciiDigit = true ∧ digitsVal rest ≤ 2 ^ 63 - 1 then
        some (digitsVal rest)
      else none
    else if c = '-' then
      if rest ≠ [] ∧ rest.all isAsciiDigit = true ∧ digitsVal rest ≤ 2 ^ 63 then
        some (-(digitsVal rest : Int))
      else none
    else
      if (c :: rest).all isAsciiDigit = true ∧ digitsVal (c :: rest) ≤ 2 ^ 63 - 1 then
        some (digitsVal (c :: rest))
      else none

/-- `IDN_RE.is_match(s)` for `IDN_RE = [a-zA-Z][a-zA-Z0-9_]*`: the regex is
unanchored, so `is_match` holds exactly when some position of `s` starts a
match, i.e. exactly when `s` contains an ASCII alphabetic character
(the `[a-zA-Z0-9_]*` tail can always match the empty string). -/
def idnReMatch (s : List Char) : Bool :=
  s.any isAsciiAlphabetic

namespace SdwLib

/-- `common::PosInfo` (all fields Rust `u64`). -/
structure PosInfo where
  line : Nat
  column : Nat
  length : Nat
deriving DecidableEq

/-- `lex::Keywords`. -/
inductive Keywords where
  | Fn
  | Return
deriving DecidableEq

/-- `lex::Keywords::new`. -/
def Keywords.new (from_ : List Char) : Option Keywords :=
  if from_ = ['f', 'n'] then some .Fn
  else if from_ = ['r', 'e', 't', 'u', 'r', 'n'] then some .Return
  else none

/-- `lex::Literal`. -/
inductive Literal where
  | Integer (n : Int)
deriving DecidableEq

/-- `lex::LexemeTypes`. -/
inductive LexemeTypes where
  | Keyword (kw : Keywords)
  | Literal (lit : Literal)
  | Idn (s : List Char)
  | OpenParen
  | CloseParen
  | OpenBrace
  | CloseBrace
  | Semicolon
deriving DecidableEq

/-- `lex::LexemeTypes::new`: fixed punctuation first, then keyword, then
`i64` literal, then the (unanchored) identifier regex. -/
def LexemeTypes.new (from_ : List Char) : Option LexemeTypes :=
  if from_ = ['('] then some .OpenParen
  else if from_ = [')'] then some .CloseParen
  else if from_ = ['{'] then some .OpenBrace
  else if from_ = ['}'] then some .CloseBrace
  else if from_ = [';'] then some .Semicolon
  else
    match Keywords.new from_ with
    | some kw => some (.Keyword kw)
    | none =>
      match parseI64 from_ with
      | some num => some (.Literal (.Integer num))
      | none =>
        if idnReMatch from_ then some (.Idn from_) else none

/-- `errors::LexErrors`. -/
inductive LexErrors where
  | UnrecognisedToken (raw : List Char)
deriving DecidableEq

/-- `errors::ErrType`. -/
inductive ErrType where
  | Lex (e : LexErrors)
deriving DecidableEq

/-- `errors::ShadowError`. -/
structure ShadowError where
  ty : ErrType
  pos : PosInfo
deriving DecidableEq

/-- `errors::ShadowError::from_pos`. -/
def ShadowError.from_pos (err : LexErrors) (pos : PosInfo) : ShadowError :=
  ⟨.Lex err, pos⟩

/-- `lex::Lexeme`. -/
structure Lexeme where
  ty : LexemeTypes
  pos : PosInfo
deriving DecidableEq

/-- `lex::Lexeme::new`: `lb` has already advanced over the token, so the
span starts at `column - length` (the `u64` subtraction never underflows
here because `column` was advanced by exactly `length`). -/
def Lexeme.new (line column : Nat) (raw_token : List Char) : Except ShadowError Lexeme :=
  let length := raw_token.length
  let pos : PosInfo := ⟨line, column - length, length⟩
  match LexemeTypes.new raw_token with
  | some ty => .ok ⟨ty, pos⟩
  | none => .error (ShadowError.from_pos (.UnrecognisedToken raw_token) pos)

/-- The mutable state of `lex::LexBuffer` at the top of the scanning loop:
the remaining (undrained) text and the running line/column cursor.
`position` is always `0` there (every branch ends in `eat`, which resets
it), so it is not carried. -/
structure LexState where
  working : List Char
  line : Nat
  column : Nat
deriving DecidableEq

/-- The whitespace branch of `lex`: consume whitespace one character at a
time; each consumed character advances the column, and a consumed newline
then resets the column to 0 and bumps the line. -/
def skipWsAux : List Char → Nat → Nat → LexState
  | [], line, column => ⟨[], line, column⟩
  | c :: rest, line, column =>
    if isAsciiWhitespace c then
      skipWsAux rest (if c = '\n' then line + 1 else line)
        (if c = '\n' then 0 else column + 1)
    else ⟨c :: rest, line, column⟩

def skipWs (st : LexState) : LexState :=
  skipWsAux st.working st.line st.column

/-- Result of one iteration of the scanning loop in `lex`. -/
inductive StepOut where
  | done
  | panic
  | error (e : ShadowError)
  | emit (lx : Lexeme) (st : LexState)
  | skip (st : LexState)
deriving DecidableEq

/-- One iteration of the `while !lb.done()` loop of `lex`.  The alphabetic
and digit branches call `lb.over()` after the final `adv`, so a run that
reaches the end of the buffer hits the position-OOB `panic!` inside
`LexBuffer::over` (modelled as `.panic`). -/
def lexStep (st : LexState) : StepOut :=
  match st.working with
  | [] => .done
  | c :: rest =>
    if isAsciiAlphabetic c then
      let t := (c :: rest).takeWhile isAsciiAlphabetic
      match (c :: rest).dropWhile isAsciiAlphabetic with
      | [] => .panic
      | r :: rs =>
        let column := st.column + t.length
        match Lexeme.new st.line column t with
        | .ok lx => .emit lx ⟨r :: rs, st.line, column⟩
        | .error e => .error e
    else if isAsciiDigit c then
      let t := (c :: rest).takeWhile isAsciiDigit
      match (c :: rest).dropWhile isAsciiDigit with
      | [] => .panic
      | r :: rs =>
        let column := st.column + t.length
        match Lexeme.new st.line column t with
        | .ok lx => .emit lx ⟨r :: rs, st.line, column⟩
        | .error e => .error e
    else if isAsciiWhitespace c then
      .skip (skipWs st)
    else
      match Lexeme.new st.line (st.column + 1) [c] with
      | .ok lx => .emit lx ⟨rest, st.line, st.column + 1⟩
      | .error e => .error e

/-- Overall result of `lex`.  `.panic` is the position-OOB `panic!` in
`LexBuffer::over`; `.fuelOut` is an artifact of the fuel-based embedding
of the loop and is unreachable for fuel greater than the buffer length
(`lexLoop_ne_fuelOut`). -/
inductive LexOutcome where
  | ok (lexemes : List Lexeme)
  | error (e : ShadowError)
  | panic
  | fuelOut
deriving DecidableEq

/-- The scanning loop of `lex`, iterated via `lexStep`; every iteration
consumes at least one character, so `fuel` larger than the buffer length
always suffices. -/
def lexLoop : Nat → LexState → LexOutcome
  | 0, _ => .fuelOut
  | fuel + 1, st =>
    match lexStep st with
    | .done => .ok []
    | .panic => .panic
    | .error e => .error e
    | .emit lx st' =>
      match lexLoop fuel st' with
      | .ok ls => .ok (lx :: ls)
      | o => o
    | .skip st' => lexLoop fuel st'

/-- `lex::lex`: scan the whole buffer starting from `PosInfo::default()`. -/
def lex (raw : List Char) : LexOutcome :=
  lexLoop (raw.length + 1) ⟨raw, 0, 0⟩

/-- `errors::repeat_char`. -/
def repeat_char (ch : Char) (len : Nat) : List Char :=
  List.replicate len ch

/-- `errors::ShadowError::verbose`: split the source on newlines, print the
line the diagnostic points at, then a line of `column` spaces and `length`
carets.  `none` models the `.expect` panic taken when the stored line
index does not exist in the given source. The result lists the printed
lines (each `println!`), as lists of characters. -/
def ShadowError.verbose (e : ShadowError) (raw : List Char) : Option (List (List Char)) :=
  match (splitOnNewlines raw).get? e.pos.line with
  | none => none
  | some line =>
    some [['[', ' ', '.', '.', ' ', ']'],
      line,
      repeat_char ' ' e.pos.column ++ repeat_char '^' e.pos.length
        ++ (" - error occured here!").data,
      ['[', ' ', '.', '.', ' ', ']']]
where
  /-- Rust `str::split('\n')`: always at least one piece; a trailing
  newline yields a trailing empty piece. -/
  splitOnNewlines : List Char → List (List Char)
    | [] => [[]]
    | c :: rest =>
      if c = '\n' then [] :: splitOnNewlines rest
      else
        match splitOnNewlines rest with
        | [] => [[c]]
        | piece :: pieces => (c :: piece) :: pieces

end SdwLib

namespace Parse

/-!
Embedding of `src/parse.rs`.  The parser consumes a lexeme vocabulary
(`crate::lex::{Keyword, Lexeme, Literal}`) that carries no positions and
includes `Newline` and `Delimiter` variants; it is distinct from the
`sdw-lib` lexer's vocabulary above.
-/

/-- `lex::Keyword` as used by `parse.rs`. -/
inductive Keyword where
  | Fn
  | Return
deriving DecidableEq

/-- `lex::Literal` as used by `parse.rs`. -/
inductive Literal where
  | Integer (n : Int)
deriving DecidableEq

/-- `lex::Lexeme` as used by `parse.rs` (matched directly as an enum).
`parse.rs` names every variant but `Semicolon`, which the spec's
`LexemeKind` set (§3) also includes. -/
inductive Lexeme where
  | Keyword (kw : Keyword)
  | Literal (lit : Literal)
  | Idn (s : String)
  | OpenParen
  | CloseParen
  | OpenBrace
  | CloseBrace
  | Semicolon
  | Newline
  | Delimiter
deriving DecidableEq

/-- `PrimitiveType`. -/
inductive PrimitiveType where
  | Void
  | Int
deriving DecidableEq

/-- The `anyhow` errors produced by parsing. -/
inductive ParseErr where
  /-- `bail!("Unexpected EOF")` / `.context("Unexpected EOF")`. -/
  | eof
  /-- `bail!("Expected {}, got {:?}", stringify!($variant), got)`;
  `expected` is the stringified pattern, `got` the popped lexeme. -/
  | mismatch (expected : String) (got : Lexeme)
  /-- `bail!("'Custom' variable types not implemented yet (given {})", from)`. -/
  | customType (given : String)
  /-- `bail!("Only literal expressions are supported for now!")`. -/
  | unsupportedExpr
deriving DecidableEq

/-- `PrimitiveType::from_str`. -/
def PrimitiveType.from_str (from_ : String) : Except ParseErr PrimitiveType :=
  if from_ = "void" then .ok .Void
  else if from_ = "int" then .ok .Int
  else .error (.customType from_)

/-- Outcome of a parsing operation over the `VecDeque` (modelled as a
list, front first).  Both success and failure carry the queue as the
Rust `&mut VecDeque` leaves it; `.panic` is the `todo!()` in
`Statement::new`; `.fuelOut` is an artifact of the fuel-based embedding
of the recursion, unreachable for large enough fuel. -/
inductive POutcome (α : Type) where
  | ok (val : α) (rest : List Lexeme)
  | err (e : ParseErr) (rest : List Lexeme)
  | panic
  | fuelOut
deriving DecidableEq

/-- Sequencing with `?`: an error propagates with the queue as the failed
operation left it, matching `&mut` + early return in Rust. -/
def POutcome.bind {α β : Type} (x : POutcome α) (f : α → List Lexeme → POutcome β) :
    POutcome β :=
  match x with
  | .ok a rest => f a rest
  | .err e rest => .err e rest
  | .panic => .panic
  | .fuelOut => .fuelOut

/-- The `consume!` macro: `pop_front`, then match.  Note the front lexeme
is popped before the pattern is checked, so a mismatch still removes it
from the queue.  `m` is the macro's pattern (returning the data the
matched variant carries), `expected` its `stringify!`-ed text. -/
def consume {α : Type} (expected : String) (m : Lexeme → Option α)
    (q : List Lexeme) : POutcome α :=
  match q with
  | [] => .err .eof []
  | l :: rest =>
    match m l with
    | some a => .ok a rest
    | none => .err (.mismatch expected l) rest

/-- Pattern `Lexeme::Keyword(Keyword::Fn)`. -/
def matchFn : Lexeme → Option Unit
  | .Keyword .Fn => some ()
  | _ => none

/-- Pattern `Lexeme::Keyword(Keyword::Return)`. -/
def matchRet : Lexeme → Option Unit
  | .Keyword .Return => some ()
  | _ => none

/-- Pattern `Lexeme::Idn(_)`, yielding the identifier text. -/
def matchIdn : Lexeme → Option String
  | .Idn s => some s
  | _ => none

/-- Pattern `Lexeme::OpenParen`. -/
def matchOpenParen : Lexeme → Option Unit
  | .OpenParen => some ()
  | _ => none

/-- Pattern `Lexeme::CloseParen`. -/
def matchCloseParen : Lexeme → Option Unit
  | .CloseParen => some ()
  | _ => none

/-- Pattern `Lexeme::OpenBrace`. -/
def matchOpenBrace : Lexeme → Option Unit
  | .OpenBrace => some ()
  | _ => none

/-- Pattern `Lexeme::CloseBrace`. -/
def matchCloseBrace : Lexeme → Option Unit
  | .CloseBrace => some ()
  | _ => none

/-- Pattern `Lexeme::Newline`. -/
def matchNewline : Lexeme → Option Unit
  | .Newline => some ()
  | _ => none

/-- Pattern `Lexeme::Delimiter`. -/
def matchDelimiter : Lexeme → Option Unit
  | .Delimiter => some ()
  | _ => none

/-- `Expression` / `Literal` AST leaves. -/
inductive Expression where
  | Literal (lit : Literal)
deriving DecidableEq

/-- `Parameter` (fields in source order). -/
structure Parameter where
  name : String
  pm_type : PrimitiveType
deriving DecidableEq

mutual
/-- `Statement`. -/
inductive Statement where
  | Return (e : Option Expression)
  | Function (f : Function)

/-- `Function` (fields in source order: name, body, return_type, params). -/
inductive Function where
  | mk (name : String) (body : Block) (return_type : PrimitiveType)
      (params : List Parameter)

/-- `Block`. -/
inductive Block where
  | mk (stmts : List Statement)
end

/-- `Root`. -/
structure Root where
  stmts : List Statement

/-- `impl ASTNode for Expression`: peek the front; pop only when it is a
literal, otherwise fail without popping. -/
def expressionNew (q : List Lexeme) : POutcome Expression :=
  match q with
  | [] => .err .eof []
  | l :: rest =>
    match l with
    | .Literal lit => .ok (.Literal lit) rest
    | _ => .err .unsupportedExpr (l :: rest)

/-- `impl ASTNode for Parameter`: type identifier (resolved through
`PrimitiveType::from_str`), then name identifier. -/
def parameterNew (q : List Lexeme) : POutcome Parameter :=
  POutcome.bind (consume "Lexeme::Idn(pmt)" matchIdn q) fun pmt q =>
  match PrimitiveType.from_str pmt with
  | .error e => .err e q
  | .ok ty =>
  POutcome.bind (consume "Lexeme::Idn(nm)" matchIdn q) fun nm q =>
  .ok ⟨nm, ty⟩ q

mutual

/-- `impl ASTNode for Statement`: dispatch on the front lexeme.
`Keyword(Fn)` routes to `Function::new` (the `fn` is left on the queue),
`Keyword(Return)` parses a return statement, anything else hits
`todo!()` — a panic, not a returned `Result`. -/
def statementNew : Nat → List Lexeme → POutcome Statement
  | 0, _ => .fuelOut
  | fuel + 1, q =>
    match q with
    | [] => .err .eof []
    | l :: _ =>
      match l with
      | .Keyword .Fn =>
        POutcome.bind (functionNew fuel q) fun f q => .ok (.Function f) q
      | .Keyword .Return =>
        POutcome.bind (consume "Lexeme::Keyword(Keyword::Return)" matchRet q) fun _ q =>
        match q with
        | [] => .err .eof []
        | l1 :: _ =>
          match l1 with
          | .Newline =>
            POutcome.bind (consume "Lexeme::Newline" matchNewline q) fun _ q =>
            .ok (.Return none) q
          | _ =>
            POutcome.bind (expressionNew q) fun e q =>
            POutcome.bind (consume "Lexeme::Newline" matchNewline q) fun _ q =>
            .ok (.Return (some e)) q
      | _ => .panic

/-- `impl ASTNode for Function`. -/
def functionNew : Nat → List Lexeme → POutcome Function
  | 0, _ => .fuelOut
  | fuel + 1, q =>
    POutcome.bind (consume "Lexeme::Keyword(Keyword::Fn)" matchFn q) fun _ q =>
    POutcome.bind (consume "Lexeme::Idn(tp)" matchIdn q) fun tp q =>
    match PrimitiveType.from_str tp with
    | .error e => .err e q
    | .ok return_type =>
    POutcome.bind (consume "Lexeme::Idn(nm)" matchIdn q) fun nm q =>
    POutcome.bind (consume "Lexeme::OpenParen" matchOpenParen q) fun _ q =>
    POutcome.bind
      (match q with
        | .CloseParen :: _ => .ok [] q
        | _ => paramsLoop fuel q) fun params q =>
    POutcome.bind (consume "Lexeme::CloseParen" matchCloseParen q) fun _ q =>
    POutcome.bind (blockNew fuel q) fun body q =>
    .ok (.mk nm body return_type params) q

/-- The parameter-list loop of `Function::new`: `while !lexemes.is_empty()`
parse a `Parameter`; consume a following `Delimiter` and continue, or
break. -/
def paramsLoop : Nat → List Lexeme → POutcome (List Parameter)
  | 0, _ => .fuelOut
  | _ + 1, [] => .ok [] []
  | fuel + 1, l :: q =>
    POutcome.bind (parameterNew (l :: q)) fun p q =>
    match q with
    | .Delimiter :: _ =>
      POutcome.bind (consume "Lexeme::Delimiter" matchDelimiter q) fun _ q =>
      POutcome.bind (paramsLoop fuel q) fun ps q =>
      .ok (p :: ps) q
    | _ => .ok [p] q

/-- `impl ASTNode for Block`. -/
def blockNew : Nat → List Lexeme → POutcome Block
  | 0, _ => .fuelOut
  | fuel + 1, q =>
    POutcome.bind (consume "Lexeme::OpenBrace" matchOpenBrace q) fun _ q =>
    POutcome.bind (blockLoop fuel q) fun stmts q =>
    POutcome.bind (consume "Lexeme::CloseBrace" matchCloseBrace q) fun _ q =>
    .ok (.mk stmts) q

/-- The statement loop of `Block::new`: parse statements until the queue
is empty or a `CloseBrace` is at the front. -/
def blockLoop : Nat → List Lexeme → POutcome (List Statement)
  | 0, _ => .fuelOut
  | _ + 1, [] => .ok [] []
  | fuel + 1, l :: q =>
    match l with
    | .CloseBrace => .ok [] (l :: q)
    | _ =>
      POutcome.bind (statementNew fuel (l :: q)) fun s q =>
      POutcome.bind (blockLoop fuel q) fun ss q =>
      .ok (s :: ss) q

end

/-- The statement loop of `Root::new`: same stopping conditions as
`Block::new`'s loop, but nothing is consumed afterwards. -/
def rootLoop : Nat → List Lexeme → POutcome (List Statement)
  | 0, _ => .fuelOut
  | _ + 1, [] => .ok [] []
  | fuel + 1, l :: q =>
    match l with
    | .CloseBrace => .ok [] (l :: q)
    | _ =>
      POutcome.bind (statementNew fuel (l :: q)) fun s q =>
      POutcome.bind (rootLoop fuel q) fun ss q =>
      .ok (s :: ss) q

/-- `impl ASTNode for Root`. -/
def rootNew (fuel : Nat) (q : List Lexeme) : POutcome Root :=
  POutcome.bind (rootLoop fuel q) fun stmts q => .ok ⟨stmts⟩ q

/-- `parse`: `Root::new` over the whole queue.  The fuel bounds the
recursion depth of the embedding only; each recursive call either
consumes a lexeme first or moves to a strictly smaller grammar rule, so
this value always suffices. -/
def parse (lexemes : List Lexeme) : POutcome Root :=
  rootNew (4 * lexemes.length + 4) lexemes

end Parse

namespace Spec

/-- Result of the spec-modelled lexer.  `.error` carries the raw text of
the offending token (the spec's `UnrecognisedToken`-class lexical error);
`.fuelOut` is an artifact of the fuel-based embedding, unreachable for
fuel greater than the input length. -/
inductive SpecLexOut where
  | ok (toks : List Parse.Lexeme)
  | error (raw_token : List Char)
  | fuelOut
deriving DecidableEq

/-- Prepend an emitted lexeme to the rest of a lexing result. -/
def SpecLexOut.push (tok : Parse.Lexeme) : SpecLexOut → SpecLexOut
  | .ok toks => .ok (tok :: toks)
  | o => o

/-- Modelled from the spec: the parser-facing lexer.  `src/parse.rs`
consumes `crate::lex::{Keyword, Lexeme, Literal}` whose `Lexeme` includes
`Newline` and `Delimiter`, but that lexer is not among the sources; only
the `sdw-lib` lexer (which lacks those kinds) is.  This follows the spec's
tokenization algorithm (§4.2 steps 1–4) with the §9 amendment that
`Newline` and `Delimiter` are first-class emitted lexeme kinds: maximal
alphabetic runs become keywords or identifiers, maximal digit runs become
`i64` integer literals (overflow is an `UnrecognisedToken`-class error),
newlines emit `Newline`, other whitespace is discarded, and single
characters are classified against `( ) { } ;` and the comma `Delimiter`;
anything else is an `UnrecognisedToken`-class error.  The parser's lexeme
vocabulary carries no positions, so none are tracked. -/
def specLexLoop : Nat → List Char → SpecLexOut
  | 0, _ => .fuelOut
  | _ + 1, [] => .ok []
  | fuel + 1, c :: rest =>
    if isAsciiAlphabetic c then
      let t := (c :: rest).takeWhile isAsciiAlphabetic
      let r := (c :: rest).dropWhile isAsciiAlphabetic
      let tok : Parse.Lexeme :=
        if t = ['f', 'n'] then .Keyword .Fn
        else if t = ['r', 'e', 't', 'u', 'r', 'n'] then .Keyword .Return
        else .Idn (String.mk t)
      (specLexLoop fuel r).push tok
    else if isAsciiDigit c then
      let t := (c :: rest).takeWhile isAsciiDigit
      let r := (c :: rest).dropWhile isAsciiDigit
      match parseI64 t with
      | some n => (specLexLoop fuel r).push (.Literal (.Integer n))
      | none => .error t
    else if c = '\n' then (specLexLoop fuel rest).push .Newline
    else if isAsciiWhitespace c then specLexLoop fuel rest
    else if c = '(' then (specLexLoop fuel rest).push .OpenParen
    else if c = ')' then (specLexLoop fuel rest).push .CloseParen
    else if c = '{' then (specLexLoop fuel rest).push .OpenBrace
    else if c = '}' then (specLexLoop fuel rest).push .CloseBrace
    else if c = ';' then (specLexLoop fuel rest).push .Semicolon
    else if c = ',' then (specLexLoop fuel rest).push .Delimiter
    else .error [c]

/-- Modelled from the spec: entry point of the parser-facing lexer. -/
def specLex (raw : List Char) : SpecLexOut :=
  specLexLoop (raw.length + 1) raw

end Spec

/-! ### Supporting lemmas -/

theorem length_dropWhile_le {α : Type} (p : α → Bool) (l : List α) :
    (l.dropWhile p).length ≤ l.length := by
  induction l with
  | nil => simp
  | cons c rest ih =>
    by_cases h : p c
    · rw [List.dropWhile_cons_of_pos h]
      exact Nat.le_succ_of_le ih
    · rw [List.dropWhile_cons_of_neg (by simpa using h)]

theorem takeWhile_all {α : Type} (p : α → Bool) (l : List α) :
    (l.takeWhile p).all p = true := by
  rw [List.all_eq_true]
  intro x hx
  exact List.mem_takeWhile_imp hx

theorem takeWhile_append_all {α : Type} (p : α → Bool) (l1 l2 : List α)
    (h : l1.all p = true) : (l1 ++ l2).takeWhile p = l1 ++ l2.takeWhile p := by
  induction l1 with
  | nil => simp
  | cons c rest ih =>
    simp only [List.all_cons, Bool.and_eq_true] at h
    simp only [List.cons_append, List.takeWhile_cons_of_pos h.1, ih h.2]

theorem dropWhile_append_all {α : Type} (p : α → Bool) (l1 l2 : List α)
    (h : l1.all p = true) : (l1 ++ l2).dropWhile p = l2.dropWhile p := by
  induction l1 with
  | nil => simp
  | cons c rest ih =>
    simp only [List.all_cons, Bool.and_eq_true] at h
    simp only [List.cons_append, List.dropWhile_cons_of_pos h.1, ih h.2]

theorem digit_not_alpha {c : Char} (h : isAsciiDigit c = true) :
    isAsciiAlphabetic c = false := by
  simp only [isAsciiDigit, Bool.and_eq_true, decide_eq_true_eq] at h
  simp only [isAsciiAlphabetic, Bool.or_eq_false_iff, Bool.and_eq_false_iff,
    decide_eq_false_iff_not, Nat.not_le]
  omega

namespace SdwLib

/-- Lexicographic order on `(line, column)` cursor pairs. -/
def pairLE (l1 c1 l2 c2 : Nat) : Prop :=
  l1 < l2 ∨ (l1 = l2 ∧ c1 ≤ c2)

/-- The claim's order on lexeme positions: non-decreasing `(line, column)`. -/
def posLE (a b : PosInfo) : Prop :=
  pairLE a.line a.column b.line b.column

instance (a b : PosInfo) : Decidable (posLE a b) := by
  unfold posLE pairLE; infer_instance

theorem pairLE_trans {l1 c1 l2 c2 l3 c3 : Nat}
    (h1 : pairLE l1 c1 l2 c2) (h2 : pairLE l2 c2 l3 c3) :
    pairLE l1 c1 l3 c3 := by
  unfold pairLE at *; omega

theorem skipWsAux_length_le (w : List Char) (line col : Nat) :
    (skipWsAux w line col).working.length ≤ w.length := by
  induction w generalizing line col with
  | nil => simp [skipWsAux]
  | cons c rest ih =>
    unfold skipWsAux
    split
    · exact le_trans (ih _ _) (Nat.le_succ _)
    · exact le_refl _

theorem skipWsAux_pos (w : List Char) (line col : Nat) :
    pairLE line col (skipWsAux w line col).line (skipWsAux w line col).column := by
  induction w generalizing line col with
  | nil => simp [skipWsAux, pairLE]
  | cons c rest ih =>
    unfold skipWsAux
    split
    · exact pairLE_trans
        (show pairLE line col (if c = '\n' then line + 1 else line)
            (if c = '\n' then 0 else col + 1) by
          unfold pairLE
          split <;> omega)
        (ih _ _)
    · simp [pairLE]

/-- Inversion for `Lexeme::new` on success. -/
theorem Lexeme.new_ok {line col : Nat} {t : List Char} {lx : Lexeme}
    (h : Lexeme.new line col t = .ok lx) :
    LexemeTypes.new t = some lx.ty ∧ lx.pos = ⟨line, col - t.length, t.length⟩ := by
  unfold Lexeme.new at h
  split at h
  · injection h with h
    subst h
    constructor
    · assumption
    · rfl
  · cases h

/-- Inversion for the classification: the only way to produce an
identifier is the final regex branch, with the keyword lookup having
failed and the token containing an alphabetic character. -/
theorem LexemeTypes.new_idn {t s : List Char}
    (h : LexemeTypes.new t = some (.Idn s)) :
    s = t ∧ Keywords.new t = none ∧ idnReMatch t = true := by
  unfold LexemeTypes.new at h
  split at h
  · cases h
  split at h
  · cases h
  split at h
  · cases h
  split at h
  · cases h
  split at h
  · cases h
  split at h
  · cases h
  split at h
  · cases h
  split at h
  · injection h with h
    injection h with h
    exact ⟨h.symm, by assumption, by assumption⟩
  · cases h

theorem lexStep_emit {st : LexState} {lx : Lexeme} {st' : LexState}
    (h : lexStep st = .emit lx st') :
    lx.pos.line = st.line ∧ lx.pos.column = st.column ∧ st'.line = st.line ∧
    st.column ≤ st'.column ∧ st'.working.length < st.working.length := by
  obtain ⟨w, line, col⟩ := st
  match w with
  | [] => simp [lexStep] at h
  | c :: rest =>
    simp only [lexStep] at h
    split at h
    case isTrue halpha =>
      split at h
      · cases h
      case _ r rs hdrop =>
        split at h
        case _ lx0 hnew =>
          injection h with h1 h2
          subst h1; subst h2
          obtain ⟨-, hpos⟩ := Lexeme.new_ok hnew
          refine ⟨by rw [hpos], by rw [hpos]; simp, rfl, by simp, ?_⟩
          simp only
          rw [← hdrop, List.dropWhile_cons_of_pos halpha]
          exact Nat.lt_succ_of_le (length_dropWhile_le _ _)
        · cases h
    case isFalse halpha =>
      split at h
      case isTrue hdigit =>
        split at h
        · cases h
        case _ r rs hdrop =>
          split at h
          case _ lx0 hnew =>
            injection h with h1 h2
            subst h1; subst h2
            obtain ⟨-, hpos⟩ := Lexeme.new_ok hnew
            refine ⟨by rw [hpos], by rw [hpos]; simp, rfl, by simp, ?_⟩
            simp only
            rw [← hdrop, List.dropWhile_cons_of_pos hdigit]
            exact Nat.lt_succ_of_le (length_dropWhile_le _ _)
          · cases h
      case isFalse =>
        split at h
        · cases h
        · split at h
          case _ lx0 hnew =>
            injection h with h1 h2
            subst h1; subst h2
            obtain ⟨-, hpos⟩ := Lexeme.new_ok hnew
            exact ⟨by rw [hpos], by rw [hpos]; simp, rfl, by simp, by simp⟩
          · cases h

theorem lexStep_skip {st : LexState} {st' : LexState}
    (h : lexStep st = .skip st') :
    pairLE st.line st.column st'.line st'.column ∧
    st'.working.length < st.working.length := by
  obtain ⟨w, line, col⟩ := st
  match w with
  | [] => simp [lexStep] at h
  | c :: rest =>
    simp only [lexStep] at h
    split at h
    · split at h <;> [cases h; (split at h <;> cases h)]
    · split at h
      · split at h <;> [cases h; (split at h <;> cases h)]
      · split at h
        case isTrue hws =>
          injection h with h
          subst h
          unfold skipWs skipWsAux
          simp only
          rw [if_pos hws]
          constructor
          · exact pairLE_trans
              (show pairLE line col (if c = '\n' then line + 1 else line)
                  (if c = '\n' then 0 else col + 1) by
                unfold pairLE
                split <;> omega)
              (skipWsAux_pos _ _ _)
          · exact Nat.lt_succ_of_le (skipWsAux_length_le _ _ _)
        · split at h <;> cases h

/-- The well-formedness the claim C10 asserts of identifier text. -/
def idnGood (s : List Char) : Prop :=
  s ≠ [] ∧ s.all isAsciiAlphabetic = true ∧
  s ≠ ['f', 'n'] ∧ s ≠ ['r', 'e', 't', 'u', 'r', 'n']

theorem lexStep_emit_idn {st : LexState} {lx : Lexeme} {st' : LexState}
    (h : lexStep st = .emit lx st') {s : List Char} (hty : lx.ty = .Idn s) :
    idnGood s := by
  obtain ⟨w, line, col⟩ := st
  match w with
  | [] => simp [lexStep] at h
  | c :: rest =>
    simp only [lexStep] at h
    split at h
    case isTrue halpha =>
      split at h
      · cases h
      case _ r rs hdrop =>
        split at h
        case _ lx0 hnew =>
          injection h with h1 h2
          subst h1
          obtain ⟨hcls, -⟩ := Lexeme.new_ok hnew
          rw [hty] at hcls
          obtain ⟨hst, hkw, -⟩ := LexemeTypes.new_idn hcls
          subst hst
          unfold Keywords.new at hkw
          refine ⟨?_, takeWhile_all _ _, ?_, ?_⟩
          · rw [List.takeWhile_cons_of_pos halpha]; simp
          · intro hfn; rw [hfn] at hkw; simp at hkw
          · intro hret; rw [hret] at hkw; simp at hkw
        · cases h
    case isFalse halpha =>
      split at h
      case isTrue hdigit =>
        split at h
        · cases h
        case _ r rs hdrop =>
          split at h
          case _ lx0 hnew =>
            injection h with h1 h2
            subst h1
            obtain ⟨hcls, -⟩ := Lexeme.new_ok hnew
            rw [hty] at hcls
            obtain ⟨hst, -, hre⟩ := LexemeTypes.new_idn hcls
            exfalso
            unfold idnReMatch at hre
            rw [List.any_eq_true] at hre
            obtain ⟨x, hx, hxa⟩ := hre
            have := List.mem_takeWhile_imp hx
            rw [digit_not_alpha this] at hxa
            cases hxa
          · cases h
      case isFalse =>
        split at h
        · cases h
        · split at h
          case _ lx0 hnew =>
            injection h with h1 h2
            subst h1
            obtain ⟨hcls, -⟩ := Lexeme.new_ok hnew
            rw [hty] at hcls
            obtain ⟨hst, -, hre⟩ := LexemeTypes.new_idn hcls
            exfalso
            unfold idnReMatch at hre
            simp only [List.any_cons, List.any_nil, Bool.or_false] at hre
            exact halpha hre
          · cases h

theorem lexLoop_ne_fuelOut : ∀ (fuel : Nat) (st : LexState),
    st.working.length < fuel → lexLoop fuel st ≠ .fuelOut := by
  intro fuel
  induction fuel with
  | zero => intro st h; omega
  | succ fuel ih =>
    intro st h
    unfold lexLoop
    match hstep : lexStep st with
    | .done => simp
    | .panic => simp
    | .error e => simp
    | .emit lx st' =>
      simp only
      have hlt := (lexStep_emit hstep).2.2.2.2
      have := ih st' (by omega)
      match hrec : lexLoop fuel st' with
      | .ok ls => simp
      | .error e => simp
      | .panic => simp
      | .fuelOut => exact absurd hrec this
    | .skip st' =>
      simp only
      have hlt := (lexStep_skip hstep).2
      exact ih st' (by omega)

theorem lexLoop_mono : ∀ (fuel : Nat) (st : LexState) (ls : List Lexeme),
    lexLoop fuel st = .ok ls →
    List.Chain' (fun a b => posLE a.pos b.pos) ls ∧
    (∀ lx, ls.head? = some lx → pairLE st.line st.column lx.pos.line lx.pos.column) := by
  intro fuel
  induction fuel with
  | zero => intro st ls h; cases h
  | succ fuel ih =>
    intro st ls h
    unfold lexLoop at h
    match hstep : lexStep st with
    | .done =>
      rw [hstep] at h
      injection h with h
      subst h
      exact ⟨List.chain'_nil, by intro lx h; cases h⟩
    | .panic => rw [hstep] at h; cases h
    | .error e => rw [hstep] at h; cases h
    | .emit lx st' =>
      rw [hstep] at h
      simp only at h
      match hrec : lexLoop fuel st' with
      | .ok ls' =>
        rw [hrec] at h
        injection h with h
        subst h
        obtain ⟨hch, hhd⟩ := ih st' ls' hrec
        obtain ⟨hl, hc, hsl, hsc, -⟩ := lexStep_emit hstep
        constructor
        · rw [List.chain'_cons']
          refine ⟨?_, hch⟩
          intro y hy
          have := hhd y hy
          unfold posLE pairLE at *
          omega
        · intro lx0 hlx0
          injection hlx0 with hlx0
          subst hlx0
          unfold pairLE
          omega
      | .error e => rw [hrec] at h; cases h
      | .panic => rw [hrec] at h; cases h
      | .fuelOut => rw [hrec] at h; cases h
    | .skip st' =>
      rw [hstep] at h
      simp only at h
      obtain ⟨hch, hhd⟩ := ih st' ls h
      refine ⟨hch, ?_⟩
      intro lx hlx
      have h1 := (lexStep_skip hstep).1
      exact pairLE_trans h1 (hhd lx hlx)

theorem lexLoop_idn : ∀ (fuel : Nat) (st : LexState) (ls : List Lexeme),
    lexLoop fuel st = .ok ls →
    ∀ lx ∈ ls, ∀ s, lx.ty = .Idn s → idnGood s := by
  intro fuel
  induction fuel with
  | zero => intro st ls h; cases h
  | succ fuel ih =>
    intro st ls h
    unfold lexLoop at h
    match hstep : lexStep st with
    | .done =>
      rw [hstep] at h
      injection h with h
      subst h
      intro lx hlx; cases hlx
    | .panic => rw [hstep] at h; cases h
    | .error e => rw [hstep] at h; cases h
    | .emit lx0 st' =>
      rw [hstep] at h
      simp only at h
      match hrec : lexLoop fuel st' with
      | .ok ls' =>
        rw [hrec] at h
        injection h with h
        subst h
        intro lx hlx s hty
        rcases List.mem_cons.mp hlx with heq | hmem
        · subst heq
          exact lexStep_emit_idn hstep hty
        · exact ih st' ls' hrec lx hmem s hty
      | .error e => rw [hrec] at h; cases h
      | .panic => rw [hrec] at h; cases h
      | .fuelOut => rw [hrec] at h; cases h
    | .skip st' =>
      rw [hstep] at h
      simp only at h
      exact ih st' ls h

end SdwLib

namespace SdwLib

theorem parseI64_overflow {t : List Char} (h1 : t ≠ [])
    (h2 : t.all isAsciiDigit = true) (h3 : 2 ^ 63 - 1 < digitsVal t) :
    parseI64 t = none := by
  match t with
  | [] => exact absurd rfl h1
  | c :: rest =>
    have hd : isAsciiDigit c = true ∧ rest.all isAsciiDigit = true := by
      simpa using h2
    have hcp : c ≠ '+' := by intro hm; rw [hm] at hd; exact absurd hd.1 (by decide)
    have hcm : c ≠ '-' := by intro hm; rw [hm] at hd; exact absurd hd.1 (by decide)
    simp only [parseI64]
    rw [if_neg hcp, if_neg hcm, if_neg]
    intro hh
    omega

theorem LexemeTypes.new_digits_overflow {t : List Char} (h1 : t ≠ [])
    (h2 : t.all isAsciiDigit = true) (h3 : 2 ^ 63 - 1 < digitsVal t) :
    LexemeTypes.new t = none := by
  have hne : ∀ u : List Char, u.all isAsciiDigit = false → t ≠ u := by
    intro u hu hm
    rw [hm, hu] at h2
    cases h2
  have hkw : Keywords.new t = none := by
    unfold Keywords.new
    rw [if_neg (hne _ (by decide)), if_neg (hne _ (by decide))]
  unfold LexemeTypes.new
  rw [if_neg (hne _ (by decide)), if_neg (hne _ (by decide)),
    if_neg (hne _ (by decide)), if_neg (hne _ (by decide)),
    if_neg (hne _ (by decide)), hkw, parseI64_overflow h1 h2 h3, if_neg]
  intro hre
  unfold idnReMatch at hre
  rw [List.any_eq_true] at hre
  obtain ⟨x, hx, hxa⟩ := hre
  rw [List.all_eq_true] at h2
  rw [digit_not_alpha (h2 x hx)] at hxa
  cases hxa

theorem lex_digit_overflow_general (t : List Char) (h1 : t ≠ [])
    (h2 : t.all isAsciiDigit = true) (h3 : 2 ^ 63 - 1 < digitsVal t) :
    lex (t ++ [';']) =
      .error (ShadowError.from_pos (.UnrecognisedToken t) ⟨0, 0, t.length⟩) := by
  match t with
  | c :: rest =>
  have hd : isAsciiDigit c = true ∧ rest.all isAsciiDigit = true := by
    simpa using h2
  have htw : (c :: (rest ++ [';'])).takeWhile isAsciiDigit = c :: rest := by
    rw [← List.cons_append]
    rw [takeWhile_append_all _ _ _ h2]
    simp [List.takeWhile]
    decide
  have hdw : (c :: (rest ++ [';'])).dropWhile isAsciiDigit = [';'] := by
    rw [← List.cons_append]
    rw [dropWhile_append_all _ _ _ h2]
    simp [List.dropWhile]
    decide
  have hstep : lexStep ⟨c :: (rest ++ [';']), 0, 0⟩ =
      .error (ShadowError.from_pos (.UnrecognisedToken (c :: rest)) ⟨0, 0, (c :: rest).length⟩) := by
    simp only [lexStep]
    rw [if_neg (by rw [digit_not_alpha hd.1]; simp), if_pos hd.1, htw, hdw]
    simp only
    unfold Lexeme.new
    rw [LexemeTypes.new_digits_overflow h1 h2 h3]
    simp only [ShadowError.from_pos]
    congr 1
    simp
  unfold lex
  rw [List.cons_append]
  unfold lexLoop
  rw [hstep]

/-- Transitivity instance for the position order, for `chain_iff_pairwise`. -/
instance : IsTrans Lexeme (fun a b => posLE a.pos b.pos) :=
  ⟨fun _ _ _ h1 h2 => pairLE_trans h1 h2⟩

end SdwLib

/-! ### The claims -/

/-- C1: lexing (with the grammar's real `Newline`/`Delimiter` conventions,
via the spec-modelled parser-facing lexer) and then parsing the minimal
valid program equivalent to `fn int main() { return 0; }` yields a `Root`
whose statement sequence is exactly one `Function` named `main` with
return type `Int`, no parameters, and a body `Block` holding exactly one
`Return(Some(Literal(Integer(0))))`. -/
theorem claim_c1_round_trip_minimal_program :
    Spec.specLex (("fn int main() \x7b return 0\n\x7d").data) =
      .ok [.Keyword .Fn, .Idn "int", .Idn "main", .OpenParen, .CloseParen, .OpenBrace,
        .Keyword .Return, .Literal (.Integer 0), .Newline, .CloseBrace] ∧
    Parse.parse [.Keyword .Fn, .Idn "int", .Idn "main", .OpenParen, .CloseParen, .OpenBrace,
        .Keyword .Return, .Literal (.Integer 0), .Newline, .CloseBrace] =
      .ok ⟨[.Function (.mk "main" (.mk [.Return (some (.Literal (.Integer 0)))]) .Int [])]⟩ [] :=
  ⟨rfl, rfl⟩

/-- C2: the claim says `lex` is total and never aborts, and in particular
that the alphabetic/digit scanning loops terminate normally when a run
reaches the end of the buffer.  The code does the opposite: on the inputs
`"a"` and `"1"` the run reaches the end of the buffer and `LexBuffer::over`
hits its position-OOB `panic!`. -/
theorem claim_c2_lex_panics_at_buffer_end :
    SdwLib.lex ['a'] = .panic ∧ SdwLib.lex ['1'] = .panic := by
  decide

/-- C3: the claim says the lexer emits `Delimiter` for a comma and
`Newline` for each newline.  The code does neither: lexing `","` fails
with an `UnrecognisedToken` error (the `LexemeTypes` vocabulary has no
`Delimiter`), and lexing `"\n"` produces no lexeme at all. -/
theorem claim_c3_no_delimiter_or_newline_emitted :
    SdwLib.lex [','] =
      .error (SdwLib.ShadowError.from_pos (.UnrecognisedToken [',']) ⟨0, 0, 1⟩) ∧
    SdwLib.lex ['\n'] = .ok [] := by
  decide

/-- C4 (counterexample): with `OpenParen` at the front of the queue,
`Statement::new` does not return an error `Result`: it hits `todo!()` and
panics (`.panic` is not an `.err`). -/
theorem claim_c4_counterexample :
    Parse.statementNew 1 [Parse.Lexeme.OpenParen] = .panic := rfl

/-- C4 (amended): when the front lexeme is neither `Keyword(Fn)` nor
`Keyword(Return)`, `Statement::new` neither returns a `Result` nor
continues: it hits the explicitly deferred `todo!()` and panics. -/
theorem claim_c4_unimplemented_statement_panics (fuel : Nat) (l : Parse.Lexeme)
    (q : List Parse.Lexeme) (hFn : l ≠ .Keyword .Fn) (hRet : l ≠ .Keyword .Return) :
    Parse.statementNew (fuel + 1) (l :: q) = .panic := by
  cases l with
  | Keyword kw =>
    cases kw with
    | Fn => exact absurd rfl hFn
    | Return => exact absurd rfl hRet
  | Literal lit => rfl
  | Idn s => rfl
  | OpenParen => rfl
  | CloseParen => rfl
  | OpenBrace => rfl
  | CloseBrace => rfl
  | Semicolon => rfl
  | Newline => rfl
  | Delimiter => rfl

/-- C4 (witness): `claim_c4_unimplemented_statement_panics` at a concrete
queue headed by `Semicolon`. -/
theorem claim_c4_witness :
    Parse.statementNew 3 [Parse.Lexeme.Semicolon, Parse.Lexeme.Newline] = .panic :=
  claim_c4_unimplemented_statement_panics 2 .Semicolon [.Newline] (by decide) (by decide)

/-- C5 (counterexample): the claim says a mismatch leaves the queue
unchanged.  It does not: expecting `CloseParen` against the queue
`[OpenBrace]`, `consume!` pops the front before matching, so the mismatch
error leaves the queue empty rather than still holding `OpenBrace`. -/
theorem claim_c5_counterexample :
    Parse.consume "Lexeme::CloseParen" Parse.matchCloseParen [Parse.Lexeme.OpenBrace] =
      .err (.mismatch "Lexeme::CloseParen" .OpenBrace) [] ∧
    ([] : List Parse.Lexeme) ≠ [Parse.Lexeme.OpenBrace] := by
  exact ⟨rfl, by decide⟩

/-- C5 (amended): the `consume!` primitive (a) fails with an EOF error on
an empty queue, (b) on a non-matching front fails with an
expected/got mismatch error with the non-matching front lexeme already
popped (the queue loses its front), and (c) on a match pops the front and
yields the data the matched variant carries. -/
theorem claim_c5_consume_contract {α : Type} (expected : String)
    (m : Parse.Lexeme → Option α) :
    (Parse.consume expected m [] = .err .eof []) ∧
    (∀ l rest, m l = none →
      Parse.consume expected m (l :: rest) = .err (.mismatch expected l) rest) ∧
    (∀ l rest a, m l = some a →
      Parse.consume expected m (l :: rest) = .ok a rest) := by
  refine ⟨rfl, ?_, ?_⟩
  · intro l rest hm
    simp [Parse.consume, hm]
  · intro l rest a hm
    simp [Parse.consume, hm]

/-- C5 (witness): `claim_c5_consume_contract` at concrete queues. -/
theorem claim_c5_witness :
    Parse.consume "Lexeme::CloseParen" Parse.matchCloseParen ([] : List Parse.Lexeme) =
      .err .eof [] ∧
    Parse.consume "Lexeme::CloseParen" Parse.matchCloseParen [.OpenBrace, .Newline] =
      .err (.mismatch "Lexeme::CloseParen" .OpenBrace) [.Newline] ∧
    Parse.consume "Lexeme::CloseParen" Parse.matchCloseParen [.CloseParen, .Newline] =
      .ok () [.Newline] :=
  ⟨(claim_c5_consume_contract "Lexeme::CloseParen" Parse.matchCloseParen).1,
   (claim_c5_consume_contract "Lexeme::CloseParen" Parse.matchCloseParen).2.1 _ _ rfl,
   (claim_c5_consume_contract "Lexeme::CloseParen" Parse.matchCloseParen).2.2 _ _ _ rfl⟩

/-- C6: parameter-list parsing: `()` yields an empty parameter sequence;
delimiter-separated parameters appear in left-to-right source order, the
last one without a trailing delimiter; omitting the delimiter between two
intended parameters fails with a mismatch error at the mandatory
closing-paren check. -/
theorem claim_c6_parameter_list_boundary :
    Parse.functionNew 20 [.Keyword .Fn, .Idn "void", .Idn "f", .OpenParen, .CloseParen,
        .OpenBrace, .CloseBrace] =
      .ok (.mk "f" (.mk []) .Void []) [] ∧
    Parse.functionNew 20 [.Keyword .Fn, .Idn "void", .Idn "f", .OpenParen,
        .Idn "int", .Idn "a", .Delimiter, .Idn "int", .Idn "b", .CloseParen,
        .OpenBrace, .CloseBrace] =
      .ok (.mk "f" (.mk []) .Void [⟨"a", .Int⟩, ⟨"b", .Int⟩]) [] ∧
    Parse.functionNew 20 [.Keyword .Fn, .Idn "void", .Idn "f", .OpenParen,
        .Idn "int", .Idn "a", .Idn "int", .Idn "b", .CloseParen,
        .OpenBrace, .CloseBrace] =
      .err (.mismatch "Lexeme::CloseParen" (.Idn "int"))
        [.Idn "b", .CloseParen, .OpenBrace, .CloseBrace] :=
  ⟨rfl, rfl, rfl⟩

/-- C7: whenever `lex` succeeds, the returned lexemes are ordered by
non-decreasing `(line, column)` pairs, in their order of appearance. -/
theorem claim_c7_position_monotonicity (raw : List Char) (ls : List SdwLib.Lexeme)
    (h : SdwLib.lex raw = .ok ls) :
    List.Pairwise (fun a b => SdwLib.posLE a.pos b.pos) ls := by
  rw [← List.chain'_iff_pairwise]
  exact (SdwLib.lexLoop_mono _ _ _ h).1

/-- C7 (witness): `claim_c7_position_monotonicity` on the source `"ab;"`. -/
theorem claim_c7_witness :
    List.Pairwise (fun a b => SdwLib.posLE a.pos b.pos)
      ([⟨.Idn ['a', 'b'], ⟨0, 0, 2⟩⟩, ⟨.Semicolon, ⟨0, 2, 1⟩⟩] : List SdwLib.Lexeme) :=
  claim_c7_position_monotonicity ['a', 'b', ';']
    ([⟨.Idn ['a', 'b'], ⟨0, 0, 2⟩⟩, ⟨.Semicolon, ⟨0, 2, 1⟩⟩] : List SdwLib.Lexeme) (by decide)

/-- C8: a digit run whose value exceeds the signed 64-bit range is an
`UnrecognisedToken` lexical error carrying the raw digit text (the failed
`i64` parse falls through to the identifier regex, which cannot match an
all-digit token), not a wrapped-around integer literal. -/
theorem claim_c8_overflow_is_unrecognised_token (t : List Char) (h1 : t ≠ [])
    (h2 : t.all isAsciiDigit = true) (h3 : 2 ^ 63 - 1 < digitsVal t) :
    SdwLib.lex (t ++ [';']) =
      .error (SdwLib.ShadowError.from_pos (.UnrecognisedToken t) ⟨0, 0, t.length⟩) :=
  SdwLib.lex_digit_overflow_general t h1 h2 h3

/-- C8 (witness): `claim_c8_overflow_is_unrecognised_token` at `2^63`,
one past `i64::MAX`. -/
theorem claim_c8_witness :
    SdwLib.lex (("9223372036854775808").data ++ [';']) =
      .error (SdwLib.ShadowError.from_pos
        (.UnrecognisedToken (("9223372036854775808").data)) ⟨0, 0, 19⟩) :=
  claim_c8_overflow_is_unrecognised_token (("9223372036854775808").data)
    (by decide) (by decide) (by decide)

/-- C9: if the stored 0-based line index selects an existing line of the
supplied source, `verbose` prints that line and beneath it `column` spaces
followed by `length` carets (then the fixed trailer); if the index selects
no existing line, `verbose` panics (models the `.expect`), producing no
ordinary output. -/
theorem claim_c9_verbose_rendering (e : SdwLib.ShadowError) (raw : List Char) :
    (∀ line, (SdwLib.ShadowError.verbose.splitOnNewlines raw).get? e.pos.line = some line →
      SdwLib.ShadowError.verbose e raw =
        some [['[', ' ', '.', '.', ' ', ']'],
          line,
          SdwLib.repeat_char ' ' e.pos.column ++ SdwLib.repeat_char '^' e.pos.length
            ++ (" - error occured here!").data,
          ['[', ' ', '.', '.', ' ', ']']]) ∧
    ((SdwLib.ShadowError.verbose.splitOnNewlines raw).get? e.pos.line = none →
      SdwLib.ShadowError.verbose e raw = none) := by
  constructor
  · intro line hline
    unfold SdwLib.ShadowError.verbose
    rw [hline]
  · intro hnone
    unfold SdwLib.ShadowError.verbose
    rw [hnone]

/-- C9 (witness): `claim_c9_verbose_rendering` on the source `"ab @c"`,
once with a valid line index and once with an out-of-range one. -/
theorem claim_c9_witness :
    SdwLib.ShadowError.verbose ⟨.Lex (.UnrecognisedToken ['@']), ⟨0, 3, 1⟩⟩ (("ab @c").data) =
      some [['[', ' ', '.', '.', ' ', ']'],
        ("ab @c").data,
        SdwLib.repeat_char ' ' 3 ++ SdwLib.repeat_char '^' 1 ++ (" - error occured here!").data,
        ['[', ' ', '.', '.', ' ', ']']] ∧
    SdwLib.ShadowError.verbose ⟨.Lex (.UnrecognisedToken ['@']), ⟨7, 3, 1⟩⟩ (("ab @c").data) =
      none :=
  ⟨(claim_c9_verbose_rendering ⟨.Lex (.UnrecognisedToken ['@']), ⟨0, 3, 1⟩⟩ (("ab @c").data)).1
      (("ab @c").data) (by decide),
   (claim_c9_verbose_rendering ⟨.Lex (.UnrecognisedToken ['@']), ⟨7, 3, 1⟩⟩ (("ab @c").data)).2
      (by decide)⟩

/-- C10: every `Idn` lexeme of a successful lex pass has non-empty,
purely ASCII-alphabetic text (so no digits or underscores) that is not a
reserved keyword spelling (`fn`, `return`). -/
theorem claim_c10_identifier_invariant (raw : List Char) (ls : List SdwLib.Lexeme)
    (h : SdwLib.lex raw = .ok ls) (lx : SdwLib.Lexeme) (hmem : lx ∈ ls)
    (s : List Char) (hty : lx.ty = .Idn s) :
    s ≠ [] ∧ s.all isAsciiAlphabetic = true ∧
    s ≠ ['f', 'n'] ∧ s ≠ ['r', 'e', 't', 'u', 'r', 'n'] :=
  SdwLib.lexLoop_idn _ _ _ h lx hmem s hty

/-- C10 (witness): `claim_c10_identifier_invariant` on the source `"ab;"`
and its `Idn` lexeme. -/
theorem claim_c10_witness :
    (['a', 'b'] : List Char) ≠ [] ∧ (['a', 'b'] : List Char).all isAsciiAlphabetic = true ∧
    (['a', 'b'] : List Char) ≠ ['f', 'n'] ∧
    (['a', 'b'] : List Char) ≠ ['r', 'e', 't', 'u', 'r', 'n'] :=
  claim_c10_identifier_invariant ['a', 'b', ';']
    [⟨.Idn ['a', 'b'], ⟨0, 0, 2⟩⟩, ⟨.Semicolon, ⟨0, 2, 1⟩⟩] (by decide)
    ⟨.Idn ['a', 'b'], ⟨0, 0, 2⟩⟩ (by decide) ['a', 'b'] rfl
